import Mathlib

/-!
Verification development for the moviemate-backend catalog service.

The controller (`getAllMovies`, `getMovieById`, `createMovie`, `updateMovie`,
`deleteMovie`, `getSearchSuggestions`, `getTrendingMovies`, `getMoviesByGenre`,
`exportMovies`) and the Movie model middleware (the `toJSON` rating transform
and the `pre('save')` capitalization hook) are shallowly embedded as pure Lean
functions over an explicit store (`List Movie`).  Text is modelled as
`List Char`.  JavaScript `NaN` propagation through `parseInt` / `Math.max` /
`Math.min` / arithmetic is modelled by `Option Int` with `none` standing for
`NaN`.

JavaScript regular expressions (the controller interpolates raw user text into
`new RegExp(...)` and `$regex` patterns) are modelled by a small compiler
`compileRx` covering literal characters, `.`, and the `?` `*` `+` quantifiers
on single-character atoms.  Patterns outside this fragment compile to
`CompRes.runk` and their matching behaviour is supplied by an oracle parameter
`unk` that theorems quantify over; patterns that are invalid in
JavaScript/PCRE (a quantifier with nothing to repeat, an unterminated group or
class, a trailing backslash) compile to `CompRes.rerr`, and operations that
would build such a regex are modelled as erroring (`Option.none` results),
matching the thrown `SyntaxError` / server-side query error.
-/

/-- Characters with special meaning in JavaScript regular expressions. -/
def isRegexMeta (c : Char) : Bool :=
  c == '\\' || c == '^' || c == '$' || c == '.' || c == '|' ||
  c == '?' || c == '*' || c == '+' || c == '(' || c == ')' ||
  c == '[' || c == ']' || c == '{' || c == '}'

/-- A string (as a character list) containing no regex metacharacters. -/
def litOnly (l : List Char) : Bool :=
  l.all (fun c => !(isRegexMeta c))

/-- Shorthand: characters of a string literal. -/
def str (s : String) : List Char := s.toList

/-- Single-character regex atoms: a literal character or `.` (any character
except a line terminator). -/
inductive RAtom where
  | lit (c : Char)
  | dot
deriving DecidableEq

/-- A regex item: an atom with an optional quantifier. -/
inductive RItem where
  | once (a : RAtom)
  | opt (a : RAtom)
  | star (a : RAtom)
  | plus (a : RAtom)
deriving DecidableEq

/-- Result of compiling a pattern string: a compiled item list, an invalid
pattern (JavaScript raises a SyntaxError, or the database rejects the query),
or a pattern outside the modelled fragment. -/
inductive CompRes where
  | ok (items : List RItem)
  | rerr
  | runk
deriving DecidableEq

/-- Prepend a compiled item to a compilation result. -/
def consRes (item : RItem) : CompRes → CompRes
  | .ok items => .ok (item :: items)
  | e => e

/-- Classification of a pattern character at atom position. -/
inductive CClass where
  | bslash
  | lparen
  | lbrack
  | rparen
  | unkMeta
  | plain (a : RAtom)
deriving DecidableEq

/-- Classify a non-quantifier pattern character: bracket constructs, other
metacharacters, or a plain atom (`.` or a literal). -/
def classify (c : Char) : CClass :=
  if c == '\\' then .bslash
  else if c == '(' then .lparen
  else if c == '[' then .lbrack
  else if c == ')' then .rparen
  else if c == ']' || c == '{' || c == '}' || c == '^' || c == '$' || c == '|' then .unkMeta
  else if c == '.' then .plain .dot
  else .plain (.lit c)

/-- Emit a pending atom in front of a compilation result. -/
def emitPend : Option RAtom → CompRes → CompRes
  | none, r => r
  | some a, r => consRes (.once a) r

/-- Compilation loop: `jq` records that the previous character was a
quantifier (so a following `?` is its lazy marker), `pending` holds the last
atom not yet emitted (a following quantifier attaches to it; a quantifier
with no pending atom and no lazy-marker position is the JavaScript error
`nothing to repeat`). -/
def compilePend : Bool → Option RAtom → List Char → CompRes
  | _, pending, [] => emitPend pending (.ok [])
  | jq, pending, c :: rest =>
    if c == '?' then
      match pending, jq with
      | some a, _ => consRes (.opt a) (compilePend true none rest)
      | none, true => compilePend false none rest
      | none, false => .rerr
    else if c == '*' then
      match pending with
      | some a => consRes (.star a) (compilePend true none rest)
      | none => .rerr
    else if c == '+' then
      match pending with
      | some a => consRes (.plus a) (compilePend true none rest)
      | none => .rerr
    else
      match classify c with
      | .bslash => if rest.isEmpty then .rerr else .runk
      | .lparen => if rest.contains ')' then .runk else .rerr
      | .lbrack => if rest.contains ']' then .runk else .rerr
      | .rparen => .rerr
      | .unkMeta => .runk
      | .plain a => emitPend pending (compilePend false (some a) rest)

/-- Compile a JavaScript regex pattern over the modelled fragment: literal
characters and `.` with the `?` `*` `+` quantifiers (each optionally followed
by a lazy marker `?`).  `(`/`[` with no closing bracket, a leading quantifier
and a trailing `\` are invalid (`rerr`); other metacharacter uses are outside
the fragment (`runk`). -/
def compileRx (l : List Char) : CompRes :=
  compilePend false none l

/-- Atom matching: literals compare case-insensitively (the controller always
passes the `i` flag); `.` matches anything but a line terminator. -/
def matchA (a : RAtom) (c : Char) : Bool :=
  match a with
  | .lit d => d.toLower == c.toLower
  | .dot => !(c == '\n' || c == '\r')

/-- Kleene-star stepping: consume any number of characters matching the
atom, then hand the remainder to the continuation. -/
def matchStar (a : RAtom) (m : List Char → Bool) : List Char → Bool
  | [] => m []
  | c :: s' => m (c :: s') || (matchA a c && matchStar a m s')

/-- Anchored matching (`^pattern$`): the items must consume the whole input. -/
def matchItems : List RItem → List Char → Bool
  | [], s => s.isEmpty
  | .once a :: ts, s =>
    match s with
    | [] => false
    | c :: s' => matchA a c && matchItems ts s'
  | .opt a :: ts, s =>
    matchItems ts s ||
      (match s with
       | [] => false
       | c :: s' => matchA a c && matchItems ts s')
  | .star a :: ts, s => matchStar a (matchItems ts) s
  | .plus a :: ts, s =>
    match s with
    | [] => false
    | c :: s' => matchA a c && matchStar a (matchItems ts) s'

/-- Unanchored left match: the items consume some prefix of the input. -/
def matchPre : List RItem → List Char → Bool
  | [], _ => true
  | .once a :: ts, s =>
    match s with
    | [] => false
    | c :: s' => matchA a c && matchPre ts s'
  | .opt a :: ts, s =>
    matchPre ts s ||
      (match s with
       | [] => false
       | c :: s' => matchA a c && matchPre ts s')
  | .star a :: ts, s => matchStar a (matchPre ts) s
  | .plus a :: ts, s =>
    match s with
    | [] => false
    | c :: s' => matchA a c && matchStar a (matchPre ts) s'

/-- Unanchored search (`RegExp.test` / `$regex` without anchors): the pattern
matches starting at some position of the input. -/
def matchFind (items : List RItem) : List Char → Bool
  | [] => matchPre items []
  | c :: s' => matchPre items (c :: s') || matchFind items s'

/-- Case-insensitive match of `needle` at the head of `hay` (used to state the
literal-substring semantics of the search fragment). -/
def leadEq : List Char → List Char → Bool
  | [], _ => true
  | _ :: _, [] => false
  | a :: as, b :: bs => a.toLower == b.toLower && leadEq as bs

/-- Case-insensitive contiguous-substring test: `needle` occurs somewhere in
`hay`. -/
def subCI (needle : List Char) : List Char → Bool
  | [] => leadEq needle []
  | c :: t => leadEq needle (c :: t) || subCI needle t

/-- Case-insensitive equality of two character lists. -/
def ciEqB : List Char → List Char → Bool
  | [], [] => true
  | [], _ :: _ => false
  | _ :: _, [] => false
  | a :: as, b :: bs => a.toLower == b.toLower && ciEqB as bs

/-- Numeric value of a digit list (most significant first). -/
def digitsVal (ds : List Char) : Int :=
  ds.foldl (fun acc c => acc * 10 + (Int.ofNat c.toNat - 48)) 0

/-- JavaScript `parseInt` over the modelled fragment: skip leading whitespace,
optional sign, then the longest digit run; `none` models `NaN` (no digits).
Hexadecimal `0x` prefixes are outside the modelled fragment. -/
def parseIntJS (s : List Char) : Option Int :=
  let t := s.dropWhile (·.isWhitespace)
  let signed : Bool × List Char :=
    match t with
    | '-' :: r => (true, r)
    | '+' :: r => (false, r)
    | r => (false, r)
  let ds := signed.2.takeWhile (·.isDigit)
  if ds.isEmpty then none
  else some ((if signed.1 then -1 else 1) * digitsVal ds)

/-- JavaScript `parseFloat` over the modelled fragment: skip leading
whitespace, optional sign, digits with an optional fractional part; `none`
models `NaN`.  Exponent notation is outside the modelled fragment. -/
def parseFloatJS (s : List Char) : Option ℚ :=
  let t := s.dropWhile (·.isWhitespace)
  let signed : Bool × List Char :=
    match t with
    | '-' :: r => (true, r)
    | '+' :: r => (false, r)
    | r => (false, r)
  let intDs := signed.2.takeWhile (·.isDigit)
  let afterInt := signed.2.dropWhile (·.isDigit)
  let frDs :=
    match afterInt with
    | '.' :: r => r.takeWhile (·.isDigit)
    | _ => []
  if intDs.isEmpty && frDs.isEmpty then none
  else
    let mag : ℚ := (digitsVal intDs : ℚ) + (digitsVal frDs : ℚ) / ((10 : ℚ) ^ frDs.length)
    some ((if signed.1 then -1 else 1) * mag)

/-- `Math.max a x` with `NaN` propagation (`Math.max(a, NaN) = NaN`). -/
def jsMaxO (a : Int) : Option Int → Option Int
  | none => none
  | some b => some (max a b)

/-- `Math.min a x` with `NaN` propagation. -/
def jsMinO (a : Int) : Option Int → Option Int
  | none => none
  | some b => some (min a b)

/-- Subtraction with `NaN` propagation. -/
def jsSubO (x : Option Int) (a : Int) : Option Int :=
  x.map (· - a)

/-- Multiplication with `NaN` propagation. -/
def jsMulO : Option Int → Option Int → Option Int
  | some a, some b => some (a * b)
  | _, _ => none

/-- Addition with `NaN` propagation. -/
def jsAddO (x : Option Int) (a : Int) : Option Int :=
  x.map (· + a)

/-- `Math.ceil (t / l)` for a non-negative total and a resolved limit;
`NaN` propagates. -/
def jsCeilDivO (t : Int) : Option Int → Option Int
  | none => none
  | some l => some ((t + l - 1) / l)

/-- `x < y` where either side may be `NaN` (comparisons with `NaN` are
`false` in JavaScript). -/
def jsLtO : Option Int → Option Int → Bool
  | some a, some b => a < b
  | _, _ => false

/-- `x > a` where `x` may be `NaN`. -/
def jsGtO (x : Option Int) (a : Int) : Bool :=
  match x with
  | some b => a < b
  | none => false

/-- `List.take` driven by a possibly-`NaN` count (`.limit(n)`); a `NaN`
count is modelled as imposing no limit. -/
def takeJs (o : Option Int) (l : List α) : List α :=
  match o with
  | none => l
  | some n => l.take n.toNat

/-- `List.drop` driven by a possibly-`NaN` count (`.skip(n)`); a `NaN`
count is modelled as skipping nothing. -/
def dropJs (o : Option Int) (l : List α) : List α :=
  match o with
  | none => l
  | some n => l.drop n.toNat

/-- JavaScript `String.prototype.trim`. -/
def trimJs (l : List Char) : List Char :=
  ((l.dropWhile (·.isWhitespace)).reverse.dropWhile (·.isWhitespace)).reverse

/-- A word character in the sense of the regex class `\w`. -/
def isWordChar (c : Char) : Bool :=
  c.isAlphanum || c == '_'

/-- The Movie model `pre('save')` hook's capitalization
(`replace(/\w\S*/g, txt => txt[0].toUpperCase() + txt.substr(1).toLowerCase())`):
each match of `\w\S*` starts at a word character and extends to the end of its
non-whitespace run; the match's first character is uppercased and the rest
lowercased, and characters outside any match are copied unchanged.  The scan
is implemented with a flag recording whether the position is inside the tail
of a match. -/
def capJsRun : Bool → List Char → List Char
  | _, [] => []
  | inRun, c :: rest =>
    if c.isWhitespace then c :: capJsRun false rest
    else if inRun then c.toLower :: capJsRun true rest
    else if isWordChar c then c.toUpper :: capJsRun true rest
    else c :: capJsRun false rest

/-- The `pre('save')` capitalization applied to a full string. -/
def capitalizeJs (l : List Char) : List Char :=
  capJsRun false l

/-- Capitalize a whitespace-free token per the amended claim C10: the first
word character is uppercased, the characters after it are lowercased, and
characters before it are preserved. -/
def capToken : List Char → List Char
  | [] => []
  | c :: cs =>
    if isWordChar c then c.toUpper :: cs.map Char.toLower
    else c :: capToken cs

/-- Capitalization as described by the amended claim C10: each maximal
non-whitespace token is rewritten by `capToken`; whitespace separates tokens
and is preserved. -/
def amendedCapitalize : List Char → List Char
  | [] => []
  | c :: rest =>
    if c.isWhitespace then c :: amendedCapitalize rest
    else
      capToken (c :: rest.takeWhile (fun x => !x.isWhitespace))
        ++ amendedCapitalize (rest.dropWhile (fun x => !x.isWhitespace))
termination_by l => l.length
decreasing_by
  · exact Nat.lt_succ_self _
  · have h : ∀ (l : List Char), (l.dropWhile (fun x => !x.isWhitespace)).length ≤ l.length := by
      intro l
      induction l with
      | nil => simp [List.dropWhile]
      | cons c t ih =>
        simp only [List.dropWhile]
        split
        · exact le_trans ih (Nat.le_succ _)
        · exact le_refl _
    exact Nat.lt_succ_of_le (h _)

/-- Capitalization as literally worded by claim C10 (first letter of each
whitespace-delimited word uppercased, the remaining letters lowercased): the
flag records being inside a word after its first letter. -/
def claimCapRun : Bool → List Char → List Char
  | _, [] => []
  | inWord, c :: rest =>
    if c.isWhitespace then c :: claimCapRun false rest
    else if inWord then c.toLower :: claimCapRun true rest
    else c.toUpper :: claimCapRun true rest

/-- The claim-C10 capitalization applied to a full string. -/
def claimCapitalize (l : List Char) : List Char :=
  claimCapRun false l


/-- `Math.round(r * 10) / 10`: round a rating to one decimal place
(JavaScript `Math.round` rounds half toward positive infinity). -/
def round1JS (r : ℚ) : ℚ :=
  ((⌊r * 10 + 1 / 2⌋ : ℤ) : ℚ) / 10

/-- Lifecycle status of a movie record (`status` enum of the Movie schema). -/
inductive MStatus where
  | active
  | inactive
  | pending
  | deleted
deriving DecidableEq

/-- A movie record as stored in the collection (the fields of the enhanced
Movie schema that the controller reads or writes; `rating`/`votes` stand for
`imdb.rating`/`imdb.votes`, timestamps are abstract integers). -/
structure Movie where
  id : Nat
  title : List Char
  plot : Option (List Char) := none
  director : Option (List Char) := none
  cast : List (List Char) := []
  genres : List (List Char) := []
  year : Option Int := none
  rating : Option ℚ := none
  votes : Option Int := none
  runtime : Option Int := none
  viewCount : Int := 0
  favorites : Int := 0
  source : List Char := str "user"
  status : MStatus := .active
  createdAt : Int := 0
  updatedAt : Int := 0
  deletedAt : Option Int := none
deriving DecidableEq

/-- An oracle giving the matching behaviour of regex patterns outside the
modelled fragment (`CompRes.runk`); theorems quantify over it. -/
def RxOracle : Type := List Char → List Char → Bool

/-- Build the matcher for an unanchored `$regex`/`RegExp` search with the `i`
flag; `none` models the pattern being rejected (thrown `SyntaxError` or
database query error). -/
def findMatcher (unk : RxOracle) (pat : List Char) : Option (List Char → Bool) :=
  match compileRx pat with
  | .ok items => some (fun s => matchFind items s)
  | .rerr => none
  | .runk => some (fun s => unk pat s)

/-- Build the matcher for the anchored pattern `'^' + pat + '$'` with the `i`
flag (the duplicate-title checks); `none` models pattern rejection. -/
def anchoredMatcher (unk : RxOracle) (pat : List Char) : Option (List Char → Bool) :=
  match compileRx pat with
  | .ok items => some (fun s => matchItems items s)
  | .rerr => none
  | .runk => some (fun s => unk ('^' :: (pat ++ ['$'])) s)

/-- Match an optional text field against a matcher: a missing field never
matches a `$regex` condition. -/
def optMatch (tm : List Char → Bool) : Option (List Char) → Bool
  | none => false
  | some t => tm t

/-- The `year` fragment of a compiled query: either an exact match
(`query.year = parseInt(year)`) or the inclusive decade range
(`{ $gte: decadeStart, $lte: decadeEnd }`); `none` components model `NaN`. -/
inductive YearCond where
  | exact (y : Option Int)
  | range (lo hi : Option Int)
deriving DecidableEq

/-- The `imdb.rating` fragment of a compiled query: optional inclusive
bounds, whose values may be `NaN` (`none`). -/
structure RatingCond where
  gte : Option (Option ℚ) := none
  lte : Option (Option ℚ) := none
deriving DecidableEq

/-- The query object built by `getAllMovies` before execution: `status` is
always restricted to `'active'`; every other fragment is present only when
the corresponding parameter is truthy. -/
structure MQuery where
  search : Option (List Char) := none
  genre : Option (List Char) := none
  yearCond : Option YearCond := none
  ratingCond : Option RatingCond := none
  source : Option (List Char) := none
deriving DecidableEq

/-- Request parameters of `GET /api/movies` with their source defaults. -/
structure ListParams where
  page : List Char := str "1"
  limit : List Char := str "12"
  search : List Char := []
  genre : List Char := []
  year : List Char := []
  decade : List Char := []
  minRating : List Char := []
  maxRating : List Char := []
  sortBy : List Char := str "title"
  source : List Char := []

/-- The Filter Compiler of `getAllMovies`: build the query object from the
raw parameters exactly in source order (search, genre, year, then decade
overwriting `query.year`, rating bounds, source). -/
def buildQuery (p : ListParams) : MQuery :=
  let q0 : MQuery := {}
  let q1 := if !(trimJs p.search).isEmpty then { q0 with search := some p.search } else q0
  let q2 := if !p.genre.isEmpty then { q1 with genre := some p.genre } else q1
  let q3 := if !p.year.isEmpty then { q2 with yearCond := some (.exact (parseIntJS p.year)) } else q2
  let q4 :=
    if !p.decade.isEmpty then
      { q3 with yearCond := some (.range (parseIntJS p.decade) (jsAddO (parseIntJS p.decade) 9)) }
    else q3
  let q5 :=
    if !p.minRating.isEmpty || !p.maxRating.isEmpty then
      { q4 with
        ratingCond := some
          { gte := if !p.minRating.isEmpty then some (parseFloatJS p.minRating) else none
            lte := if !p.maxRating.isEmpty then some (parseFloatJS p.maxRating) else none } }
    else q4
  if !p.source.isEmpty then { q5 with source := some p.source } else q5

/-- Evaluate the `year` fragment on a record; a missing `year` field or a
`NaN` bound matches nothing. -/
def yearOk (c : Option YearCond) (m : Movie) : Bool :=
  match c with
  | none => true
  | some (.exact y) =>
    match y, m.year with
    | some v, some w => v == w
    | _, _ => false
  | some (.range lo hi) =>
    match lo, hi, m.year with
    | some a, some b, some w => a ≤ w && w ≤ b
    | _, _, _ => false

/-- Evaluate the rating fragment on a record; a missing rating or a `NaN`
bound matches nothing. -/
def ratingOk (c : Option RatingCond) (m : Movie) : Bool :=
  match c with
  | none => true
  | some rc =>
    match m.rating with
    | none => false
    | some r =>
      (match rc.gte with
       | none => true
       | some none => false
       | some (some b) => b ≤ r) &&
      (match rc.lte with
       | none => true
       | some none => false
       | some (some b) => r ≤ b)

/-- Evaluate the source fragment on a record. -/
def sourceOk (c : Option (List Char)) (m : Movie) : Bool :=
  match c with
  | none => true
  | some s => m.source == s

/-- Build the `$or` search predicate over title, plot, director, cast entries
and genre entries; `none` models a rejected search regex. -/
def orSearch (unk : RxOracle) (s : List Char) : Option (Movie → Bool) :=
  (findMatcher unk s).map (fun tm m =>
    tm m.title || optMatch tm m.plot || optMatch tm m.director ||
      m.cast.any tm || m.genres.any tm)

/-- The search fragment of the compiled query; the identity-true predicate
when no search is present. -/
def searchPredO (unk : RxOracle) (q : MQuery) : Option (Movie → Bool) :=
  match q.search with
  | none => some (fun _ => true)
  | some s => orSearch unk s

/-- The genre fragment of the compiled query
(`genres: { $in: [new RegExp(genre, 'i')] }`): any genre entry matches the
raw parameter as a case-insensitive regex; `none` models a rejected
pattern. -/
def genrePredO (unk : RxOracle) (q : MQuery) : Option (Movie → Bool) :=
  match q.genre with
  | none => some (fun _ => true)
  | some g => (findMatcher unk g).map (fun tm m => m.genres.any tm)

/-- Compile the full query object to an executable predicate; `none` models
a rejected regex fragment.  The `status = 'active'` conjunct is always
present. -/
def compileQuery (unk : RxOracle) (q : MQuery) : Option (Movie → Bool) :=
  match searchPredO unk q, genrePredO unk q with
  | some sPred, some gPred =>
    some (fun m =>
      (m.status == .active) && sPred m && gPred m &&
        yearOk q.yearCond m && ratingOk q.ratingCond m && sourceOk q.source m)
  | _, _ => none

/-- Lexicographic comparison of character lists (database string ordering). -/
def cmpChars : List Char → List Char → Ordering
  | [], [] => .eq
  | [], _ :: _ => .lt
  | _ :: _, [] => .gt
  | a :: as, b :: bs => (compare a b).then (cmpChars as bs)

/-- Compare optional integers; a missing value sorts before any present one
(the database sorts missing fields first in ascending order). -/
def cmpOptInt : Option Int → Option Int → Ordering
  | none, none => .eq
  | none, some _ => .lt
  | some _, none => .gt
  | some a, some b => compare a b

/-- Compare rationals. -/
def cmpRat (a b : ℚ) : Ordering :=
  if a < b then .lt else if b < a then .gt else .eq

/-- Compare optional rationals; missing sorts first. -/
def cmpOptRat : Option ℚ → Option ℚ → Ordering
  | none, none => .eq
  | none, some _ => .lt
  | some _, none => .gt
  | some a, some b => cmpRat a b

/-- Turn a comparison into a `should sort no later than` test. -/
def leOfCmp (cmp : α → α → Ordering) (a b : α) : Bool :=
  !(cmp a b == .gt)

/-- Insert an element into a sorted list. -/
def insertLe (le : α → α → Bool) (x : α) : List α → List α
  | [] => [x]
  | y :: ys => if le x y then x :: y :: ys else y :: insertLe le x ys

/-- Insertion sort (models the database sort; only the membership of the
result matters to the claims). -/
def insSort (le : α → α → Bool) : List α → List α
  | [] => []
  | x :: xs => insertLe le x (insSort le xs)

/-- The sort orderings of `getAllMovies` (`sortBy` switch, including the
default branch for unrecognized keys). -/
def sortCmp (sortBy : List Char) (a b : Movie) : Ordering :=
  if sortBy == str "year" then (cmpOptInt a.year b.year).swap.then (cmpChars a.title b.title)
  else if sortBy == str "rating" then
    (cmpOptRat a.rating b.rating).swap.then
      ((cmpOptInt a.votes b.votes).swap.then (cmpChars a.title b.title))
  else if sortBy == str "popularity" then
    (compare a.viewCount b.viewCount).swap.then
      ((compare a.favorites b.favorites).swap.then (cmpChars a.title b.title))
  else if sortBy == str "latest" then (compare a.createdAt b.createdAt).swap
  else if sortBy == str "runtime" then
    (cmpOptInt a.runtime b.runtime).swap.then (cmpChars a.title b.title)
  else cmpChars a.title b.title

/-- Resolved page number of `getAllMovies`: `Math.max(1, parseInt(page))`. -/
def resolvedPage (p : ListParams) : Option Int :=
  jsMaxO 1 (parseIntJS p.page)

/-- Resolved page size of `getAllMovies`:
`Math.min(50, Math.max(1, parseInt(limit)))`. -/
def resolvedLimit (p : ListParams) : Option Int :=
  jsMinO 50 (jsMaxO 1 (parseIntJS p.limit))

/-- Resolved skip of `getAllMovies`: `(pageNum - 1) * limitNum`. -/
def resolvedSkip (p : ListParams) : Option Int :=
  jsMulO (jsSubO (resolvedPage p) 1) (resolvedLimit p)

/-- Pagination metadata of the listing envelope. -/
structure Pagination where
  currentPage : Option Int
  totalPages : Option Int
  totalMovies : Int
  hasNext : Bool
  hasPrev : Bool
  limit : Option Int
deriving DecidableEq

/-- Listing response envelope (the genre/year-range metadata aggregates of
the source, which no claim concerns, are omitted). -/
structure ListResponse where
  movies : List Movie
  pagination : Pagination
deriving DecidableEq

/-- `GET /api/movies`: compile the filters, execute, sort, page and wrap.
`none` models the handler erroring (a rejected regex fragment). -/
def getAllMovies (unk : RxOracle) (p : ListParams) (store : List Movie) :
    Option ListResponse :=
  let pageNum := resolvedPage p
  let limitNum := resolvedLimit p
  let skip := resolvedSkip p
  match compileQuery unk (buildQuery p) with
  | none => none
  | some pred =>
    let filtered := store.filter pred
    let sorted := insSort (leOfCmp (sortCmp p.sortBy)) filtered
    let items := takeJs limitNum (dropJs skip sorted)
    let total : Int := filtered.length
    let totalPages := jsCeilDivO total limitNum
    some {
      movies := items
      pagination := {
        currentPage := pageNum
        totalPages := totalPages
        totalMovies := total
        hasNext := jsLtO pageNum totalPages
        hasPrev := jsGtO pageNum 1
        limit := limitNum } }

/-- The Movie schema `toJSON` transform: round `imdb.rating` to one decimal
when present and truthy (Mongoose documents are serialized through this;
`.lean()` results are not). -/
def renderDoc (m : Movie) : Movie :=
  { m with rating := m.rating.map (fun r => if r == 0 then r else round1JS r) }

/-- Result of `GET /api/movies/:id`. -/
inductive GetByIdResult where
  | notFound (id : Nat)
  | found (movie : Movie) (related : List Movie)
deriving DecidableEq

/-- Related-movie condition of `getMovieById`: another record, active, and
sharing a genre or the director.  When the target has no director, Mongoose
drops the `undefined` equality condition, leaving an empty clause in the
`$or`, which matches every record. -/
def relatedOk (id : Nat) (m x : Movie) : Bool :=
  !(x.id == id) && (x.status == .active) &&
    (x.genres.any (fun g => m.genres.contains g) ||
      (match m.director with
       | some d => x.director == some d
       | none => true))

/-- `GET /api/movies/:id`: a missing or soft-deleted record is not-found;
otherwise the view counter is incremented synchronously on the in-memory
document before it is serialized, and up to 6 related records are fetched
with `.lean()`. -/
def getMovieById (id : Nat) (store : List Movie) : GetByIdResult :=
  match store.find? (fun m => m.id == id) with
  | none => .notFound id
  | some m =>
    if m.status == .deleted then .notFound id
    else
      .found (renderDoc { m with viewCount := m.viewCount + 1 })
        ((store.filter (relatedOk id m)).take 6)

/-- Request body of `POST /api/movies` (validated fields). -/
structure CreateBody where
  title : List Char
  director : Option (List Char) := none
  plot : Option (List Char) := none
  cast : List (List Char) := []
  genres : List (List Char) := []
  year : Int
  rating : Option ℚ := none
  runtime : Option Int := none

/-- Fresh identifier assigned by the storage layer at insertion. -/
def freshId (store : List Movie) : Nat :=
  (store.map (fun m => m.id)).foldr max 0 + 1

/-- Persist a new record through `save`: the `pre('save')` hook capitalizes
title and director, the controller stamps `source: 'user'`, and the schema
defaults apply. -/
def saveNew (now : Int) (nid : Nat) (b : CreateBody) : Movie :=
  { id := nid
    title := capitalizeJs b.title
    plot := b.plot
    director := b.director.map capitalizeJs
    cast := b.cast
    genres := b.genres
    year := some b.year
    rating := b.rating
    runtime := b.runtime
    source := str "user"
    status := .active
    createdAt := now
    updatedAt := now }

/-- Result of `POST /api/movies`. -/
inductive CreateResult where
  | conflict (title : List Char) (year : Int)
  | created (m : Movie)
deriving DecidableEq

/-- Is a create result the duplicate-conflict rejection? -/
def isConflict : CreateResult → Bool
  | .conflict _ _ => true
  | .created _ => false

/-- `POST /api/movies`: duplicate check with
`title: new RegExp('^' + title + '$', 'i'), year, status: { $ne: 'deleted' }`
(the raw title is interpolated into the pattern), then persist through
`save`.  `none` models the handler erroring on an invalid regex. -/
def createMovie (unk : RxOracle) (now : Int) (b : CreateBody) (store : List Movie) :
    Option (CreateResult × List Movie) :=
  match anchoredMatcher unk b.title with
  | none => none
  | some tm =>
    if store.any (fun m => tm m.title && (m.year == some b.year) && !(m.status == .deleted)) then
      some (.conflict b.title b.year, store)
    else
      let nm := saveNew now (freshId store) b
      some (.created nm, store ++ [nm])

/-- Request body of `PUT /api/movies/:id` (the updatable fields the claims
concern; absent fields are not part of the update). -/
structure UpdateData where
  title : Option (List Char) := none
  year : Option Int := none
  plot : Option (List Char) := none
  status : Option MStatus := none

/-- Merge an update into a record, stamping `updatedAt`
(`findByIdAndUpdate` does not run the `pre('save')` hook, so no
capitalization is applied here). -/
def applyUpd (now : Int) (m : Movie) (u : UpdateData) : Movie :=
  { m with
    title := u.title.getD m.title
    year := match u.year with | some y => some y | none => m.year
    plot := match u.plot with | some t => some t | none => m.plot
    status := u.status.getD m.status
    updatedAt := now }

/-- Replace the record with the given identifier. -/
def replaceId (store : List Movie) (id : Nat) (m' : Movie) : List Movie :=
  store.map (fun x => if x.id == id then m' else x)

/-- Result of `PUT /api/movies/:id`. -/
inductive UpdateResult where
  | conflict
  | notFound (id : Nat)
  | updated (m : Movie)
deriving DecidableEq

/-- The duplicate check of `updateMovie`:
`_id: { $ne: id }, title: new RegExp('^' + (title || '.*') + '$', 'i'),
year: updateData.year, status: { $ne: 'deleted' }`.  When the update carries
no year, Mongoose strips the `undefined` year condition from the query. -/
def updateDupHit (unk : RxOracle) (id : Nat) (tpat : List Char) (yr : Option Int)
    (store : List Movie) : Option Bool :=
  (anchoredMatcher unk tpat).map (fun tm =>
    store.any (fun m =>
      !(m.id == id) && tm m.title &&
        (match yr with | some y => m.year == some y | none => true) &&
        !(m.status == .deleted)))

/-- The `findByIdAndUpdate` step of `updateMovie`: the update is applied to
the record matched by identifier alone, and the not-found check runs on the
returned (post-update) document. -/
def updateApply (now : Int) (id : Nat) (u : UpdateData) (store : List Movie) :
    UpdateResult × List Movie :=
  match store.find? (fun m => m.id == id) with
  | none => (.notFound id, store)
  | some m =>
    let m' := applyUpd now m u
    let store' := replaceId store id m'
    if m'.status == .deleted then (.notFound id, store') else (.updated m', store')

/-- `PUT /api/movies/:id`: duplicate check (only when a title or year is
supplied), then update-then-check.  `none` models the handler erroring on an
invalid regex. -/
def updateMovie (unk : RxOracle) (now : Int) (id : Nat) (u : UpdateData)
    (store : List Movie) : Option (UpdateResult × List Movie) :=
  if u.title.isSome || u.year.isSome then
    match updateDupHit unk id (u.title.getD (str ".*")) u.year store with
    | none => none
    | some true => some (.conflict, store)
    | some false => some (updateApply now id u store)
  else some (updateApply now id u store)

/-- Result of `DELETE /api/movies/:id`. -/
inductive DeleteResult where
  | notFound (id : Nat)
  | deleted (id : Nat) (title : List Char) (year : Option Int)
deriving DecidableEq

/-- `DELETE /api/movies/:id`: `findByIdAndUpdate` matches by identifier
alone (regardless of current status), sets `status: 'deleted'` and
`deletedAt`, and reports not-found only when no record has the
identifier. -/
def deleteMovie (now : Int) (id : Nat) (store : List Movie) :
    DeleteResult × List Movie :=
  match store.find? (fun m => m.id == id) with
  | none => (.notFound id, store)
  | some m =>
    let m' := { m with status := MStatus.deleted, deletedAt := some now }
    (.deleted m'.id m'.title m'.year, replaceId store id m')

/-- Ordering of search suggestions: `viewCount` descending, title
ascending. -/
def suggestCmp (a b : Movie) : Ordering :=
  (compare a.viewCount b.viewCount).swap.then (cmpChars a.title b.title)

/-- The records selected by `GET /api/movies/search/suggestions`: queries of
fewer than 2 characters short-circuit to an empty list; otherwise active
records whose title matches the raw query as a case-insensitive regex, top
10 by popularity.  `none` models an invalid query regex erroring. -/
def suggestionPool (unk : RxOracle) (q : List Char) (store : List Movie) :
    Option (List Movie) :=
  if q.length < 2 then some []
  else
    match findMatcher unk q with
    | none => none
    | some tm =>
      some ((insSort (leOfCmp suggestCmp)
        (store.filter (fun m => (m.status == .active) && tm m.title))).take 10)

/-- A formatted autocomplete suggestion. -/
structure Suggestion where
  id : Nat
  title : List Char
  year : Option Int
  director : Option (List Char)
deriving DecidableEq

/-- Format one suggestion (the `display` string of the source is the title
and year joined, carried here by the `title`/`year` fields). -/
def mkSuggestion (m : Movie) : Suggestion :=
  { id := m.id, title := m.title, year := m.year, director := m.director }

/-- `GET /api/movies/search/suggestions`. -/
def getSearchSuggestions (unk : RxOracle) (q : List Char) (store : List Movie) :
    Option (List Suggestion) :=
  (suggestionPool unk q store).map (fun l => l.map mkSuggestion)

/-- Trending request parameters with their defaults. -/
structure TrendParams where
  period : List Char := str "week"
  limit : List Char := str "10"

/-- The `updatedAt` cutoff of the trending window (day/week/month in
milliseconds); an unrecognized period applies no date filter. -/
def trendCutoff (now : Int) (period : List Char) : Option Int :=
  if period == str "day" then some (now - 86400000)
  else if period == str "week" then some (now - 604800000)
  else if period == str "month" then some (now - 2592000000)
  else none

/-- Ordering of trending movies: `viewCount`, `favorites`, rating, all
descending. -/
def trendCmp (a b : Movie) : Ordering :=
  (compare a.viewCount b.viewCount).swap.then
    ((compare a.favorites b.favorites).swap.then ((cmpOptRat a.rating b.rating).swap))

/-- `GET /api/movies/trending`: active records inside the window, by
popularity, limited by `parseInt(limit)`. -/
def getTrendingMovies (now : Int) (p : TrendParams) (store : List Movie) :
    List Movie :=
  takeJs (parseIntJS p.limit)
    (insSort (leOfCmp trendCmp)
      (store.filter (fun m =>
        (m.status == .active) &&
          (match trendCutoff now p.period with
           | some c => c ≤ m.updatedAt
           | none => true))))

/-- By-genre request parameters with their defaults. -/
structure GenreParams where
  page : List Char := str "1"
  limit : List Char := str "12"
  sortBy : List Char := str "rating"

/-- The sort orderings of `getMoviesByGenre` (its `rating` branch and
default omit the title tie-breaker). -/
def genreSortCmp (sortBy : List Char) (a b : Movie) : Ordering :=
  if sortBy == str "year" then (cmpOptInt a.year b.year).swap.then (cmpChars a.title b.title)
  else if sortBy == str "rating" then
    (cmpOptRat a.rating b.rating).swap.then ((cmpOptInt a.votes b.votes).swap)
  else if sortBy == str "popularity" then
    (compare a.viewCount b.viewCount).swap.then ((compare a.favorites b.favorites).swap)
  else if sortBy == str "alphabetical" then cmpChars a.title b.title
  else (cmpOptRat a.rating b.rating).swap.then ((cmpOptInt a.votes b.votes).swap)

/-- `GET /api/movies/genre/:genre`: active records whose genre list matches
the raw path parameter as a case-insensitive regex, sorted and paged with
the same clamps as the listing.  `none` models an invalid genre regex
erroring. -/
def getMoviesByGenre (unk : RxOracle) (genre : List Char) (p : GenreParams)
    (store : List Movie) : Option ListResponse :=
  let pageNum := jsMaxO 1 (parseIntJS p.page)
  let limitNum := jsMinO 50 (jsMaxO 1 (parseIntJS p.limit))
  let skip := jsMulO (jsSubO pageNum 1) limitNum
  match findMatcher unk genre with
  | none => none
  | some tm =>
    let filtered := store.filter (fun m => (m.status == .active) && m.genres.any tm)
    let sorted := insSort (leOfCmp (genreSortCmp p.sortBy)) filtered
    let items := takeJs limitNum (dropJs skip sorted)
    let total : Int := filtered.length
    let totalPages := jsCeilDivO total limitNum
    some {
      movies := items
      pagination := {
        currentPage := pageNum
        totalPages := totalPages
        totalMovies := total
        hasNext := jsLtO pageNum totalPages
        hasPrev := jsGtO pageNum 1
        limit := limitNum } }

/-- `GET /api/movies/export` (JSON branch): all records, or only active ones
unless `includeDeleted === 'true'`, sorted by title. -/
def exportMovies (includeDeleted : List Char) (store : List Movie) : List Movie :=
  insSort (leOfCmp (fun a b => cmpChars a.title b.title))
    (store.filter (fun m =>
      if includeDeleted == str "true" then true else m.status == .active))

/-- Projection of the detail response onto the rendered rating (used to state
the rounding behaviour of the document-serialization path). -/
def detailRating (id : Nat) (store : List Movie) : Option (Option ℚ) :=
  match getMovieById id store with
  | .found mv _ => some mv.rating
  | .notFound _ => none

/-- A concrete oracle for regex patterns outside the modelled fragment
(used to instantiate witnesses; it never matches). -/
def rxZero : RxOracle := fun _ _ => false

/-- An active record used by several witnesses. -/
def mW1 : Movie :=
  { id := 1, title := str "Heat", year := some 1995, genres := [str "Crime"] }

/-- A soft-deleted record. -/
def mGhost : Movie :=
  { id := 1, title := str "Ghost", year := some 1990, status := .deleted }

/-- An active record whose stored rating has three decimal places. -/
def mHeat : Movie :=
  { id := 1, title := str "Heat", year := some 1995, rating := some (7666 / 1000 : ℚ),
    genres := [str "Crime"] }

/-- An active record whose title contains the regex metacharacter `?`. -/
def mWhat : Movie :=
  { id := 1, title := str "What?", year := some 2000 }

/-- A create request duplicating `mWhat` exactly (same title, same year). -/
def bWhat : CreateBody :=
  { title := str "What?", year := 2000 }

/-- A create request duplicating `mW1` up to case. -/
def bHeatDup : CreateBody :=
  { title := str "heat", year := 1995 }

/-- A soft-deleted record with a plot, target of a failed update. -/
def mDelPlot : Movie :=
  { id := 1, title := str "Ghost", plot := some (str "old"), year := some 1990,
    status := .deleted }

/-- A partial update touching only the plot. -/
def updPlot : UpdateData :=
  { plot := some (str "new") }

/-- Listing parameters whose search string is the invalid regex `(`. -/
def pParen : ListParams :=
  { search := str "(" }

/-- Listing parameters with a non-numeric page. -/
def pAbc : ListParams :=
  { page := str "abc", limit := str "5" }

/-- Listing parameters requesting page 2 with an oversized limit. -/
def p500 : ListParams :=
  { page := str "2", limit := str "500" }

/-- The listing response for `p500` over the store `[mW1]`. -/
def resp500 : ListResponse :=
  { movies := []
    pagination :=
      { currentPage := some 2, totalPages := some 1, totalMovies := 1,
        hasNext := false, hasPrev := true, limit := some 50 } }

/-- Listing parameters supplying both a decade and a year. -/
def pDecade : ListParams :=
  { decade := str "1990", year := str "1985" }

/-- Listing parameters with a plain literal search string. -/
def pGod : ListParams :=
  { search := str "god" }

/-- An active record whose title is the metacharacter-free part of
`mWhat`'s title. -/
def mWhatPlain : Movie :=
  { id := 2, title := str "What", year := some 1999 }

/-- A partial update supplying only a title that contains `?`. -/
def updTitleQ : UpdateData :=
  { title := some (str "What?") }

/-- A record matching a title-only update conflict check but not the
create-style (title, year) key for year 2001. -/
def mBroadY : Movie :=
  { id := 2, title := str "Abc", year := some 1999 }

/-- A record matching a year-only update conflict check for 2001 but not the
create-style (title, year) key for title `Abc`. -/
def mBroadZ : Movie :=
  { id := 3, title := str "Zzz", year := some 2001 }

/-- A create request whose director token starts with a non-word
character. -/
def bJohn : CreateBody :=
  { title := str "Home", director := some (str "(JOHN)"), year := 2021 }

/-! ### Supporting lemmas -/

theorem mem_insertLe {le : α → α → Bool} {x a : α} {l : List α} :
    a ∈ insertLe le x l ↔ a = x ∨ a ∈ l := by
  induction l with
  | nil => simp [insertLe]
  | cons y ys ih =>
    simp only [insertLe]
    split
    · simp
    · simp [ih]
      tauto

theorem mem_insSort {le : α → α → Bool} {a : α} {l : List α} :
    a ∈ insSort le l ↔ a ∈ l := by
  induction l with
  | nil => simp [insSort]
  | cons y ys ih => simp [insSort, mem_insertLe, ih]

theorem mem_takeJs {o : Option Int} {a : α} {l : List α} (h : a ∈ takeJs o l) :
    a ∈ l := by
  cases o with
  | none => simpa [takeJs] using h
  | some n => exact List.take_subset _ _ (by simpa [takeJs] using h)

theorem mem_dropJs {o : Option Int} {a : α} {l : List α} (h : a ∈ dropJs o l) :
    a ∈ l := by
  cases o with
  | none => simpa [dropJs] using h
  | some n => exact List.drop_subset _ _ (by simpa [dropJs] using h)

theorem le_foldr_max {l : List Nat} {x : Nat} (h : x ∈ l) :
    x ≤ l.foldr max 0 := by
  induction l with
  | nil => simp at h
  | cons y ys ih =>
    rcases List.mem_cons.mp h with rfl | hm
    · exact le_max_left _ _
    · exact le_trans (ih hm) (le_max_right _ _)

theorem notMeta_facts {c : Char} (h : isRegexMeta c = false) :
    (c == '\\') = false ∧ (c == '^') = false ∧ (c == '$') = false ∧ (c == '.') = false ∧
    (c == '|') = false ∧ (c == '?') = false ∧ (c == '*') = false ∧ (c == '+') = false ∧
    (c == '(') = false ∧ (c == ')') = false ∧ (c == '[') = false ∧ (c == ']') = false ∧
    (c == '{') = false ∧ (c == '}') = false := by
  simp only [isRegexMeta, Bool.or_eq_false_iff] at h
  exact ⟨h.1.1.1.1.1.1.1.1.1.1.1.1.1, h.1.1.1.1.1.1.1.1.1.1.1.1.2, h.1.1.1.1.1.1.1.1.1.1.1.2,
    h.1.1.1.1.1.1.1.1.1.1.2, h.1.1.1.1.1.1.1.1.1.2, h.1.1.1.1.1.1.1.1.2, h.1.1.1.1.1.1.1.2,
    h.1.1.1.1.1.1.2, h.1.1.1.1.1.2, h.1.1.1.1.2, h.1.1.1.2, h.1.1.2, h.1.2, h.2⟩

theorem classify_plain {c : Char} (h : isRegexMeta c = false) :
    classify c = .plain (.lit c) := by
  obtain ⟨h1, h2, h3, h4, h5, h6, h7, h8, h9, h10, h11, h12, h13, h14⟩ := notMeta_facts h
  simp [classify, h1, h2, h3, h4, h5, h9, h10, h11, h12, h13, h14]

theorem compilePend_lit {t : List Char} (h : litOnly t = true) (p : Option RAtom) :
    compilePend false p t = emitPend p (.ok (t.map (fun c => RItem.once (RAtom.lit c)))) := by
  induction t generalizing p with
  | nil => rfl
  | cons c rest ih =>
    simp only [litOnly, List.all_cons, Bool.and_eq_true, Bool.not_eq_true'] at h
    obtain ⟨hc, hrest⟩ := h
    have hcl := classify_plain hc
    obtain ⟨h1, h2, h3, h4, h5, h6, h7, h8, h9, h10, h11, h12, h13, h14⟩ := notMeta_facts hc
    have ihr := ih (by simpa [litOnly] using hrest) (some (.lit c))
    simp only [compilePend, h6, h7, h8, if_false, hcl, ihr]
    cases p <;> simp [emitPend, consRes]

theorem compileRx_lit {t : List Char} (h : litOnly t = true) :
    compileRx t = .ok (t.map (fun c => RItem.once (RAtom.lit c))) := by
  simpa [compileRx, emitPend] using compilePend_lit h none

theorem matchItems_lits (t : List Char) :
    ∀ s, matchItems (t.map (fun c => RItem.once (RAtom.lit c))) s = ciEqB t s := by
  induction t with
  | nil =>
    intro s
    cases s <;> simp [matchItems, ciEqB]
  | cons c t ih =>
    intro s
    cases s with
    | nil => simp [matchItems, ciEqB]
    | cons d s' => simp [matchItems, ciEqB, matchA, ih]

theorem matchPre_lits (t : List Char) :
    ∀ s, matchPre (t.map (fun c => RItem.once (RAtom.lit c))) s = leadEq t s := by
  induction t with
  | nil =>
    intro s
    cases s <;> simp [matchPre, leadEq]
  | cons c t ih =>
    intro s
    cases s with
    | nil => simp [matchPre, leadEq]
    | cons d s' => simp [matchPre, leadEq, matchA, ih]

theorem matchFind_lits (t : List Char) :
    ∀ s, matchFind (t.map (fun c => RItem.once (RAtom.lit c))) s = subCI t s := by
  intro s
  induction s with
  | nil => simp [matchFind, subCI, matchPre_lits]
  | cons c s' ih => simp [matchFind, subCI, matchPre_lits, ih]

theorem matchItems_dotStar :
    ∀ s, matchItems [RItem.star RAtom.dot] s = s.all (fun c => matchA RAtom.dot c) := by
  intro s
  induction s with
  | nil => simp [matchItems, matchStar]
  | cons c s' ih =>
    show matchStar RAtom.dot (matchItems []) (c :: s') = _
    have hrec : matchStar RAtom.dot (matchItems []) s' = matchItems [RItem.star RAtom.dot] s' := rfl
    simp only [matchStar]
    rw [hrec, ih]
    simp [matchItems]

theorem compileQuery_active {unk : RxOracle} {q : MQuery} {pred : Movie → Bool}
    (h : compileQuery unk q = some pred) {m : Movie} (hm : pred m = true) :
    m.status = .active := by
  unfold compileQuery at h
  cases hs : searchPredO unk q with
  | none => rw [hs] at h; exact absurd h (by simp)
  | some sPred =>
    cases hg : genrePredO unk q with
    | none => rw [hs, hg] at h; simp at h
    | some gPred =>
      rw [hs, hg] at h
      injection h with h'
      subst h'
      simp only [Bool.and_eq_true] at hm
      exact beq_iff_eq.mp hm.1.1.1.1.1

theorem dropWhile_len_le (p : Char → Bool) (l : List Char) :
    (l.dropWhile p).length ≤ l.length := by
  induction l with
  | nil => simp [List.dropWhile]
  | cons c t ih =>
    simp only [List.dropWhile]
    split
    · exact le_trans ih (Nat.le_succ _)
    · exact le_refl _

theorem capJsRun_true (l : List Char) :
    capJsRun true l =
      (l.takeWhile (fun x => !x.isWhitespace)).map Char.toLower
        ++ capJsRun false (l.dropWhile (fun x => !x.isWhitespace)) := by
  induction l with
  | nil => simp [capJsRun]
  | cons c rest ih =>
    by_cases hw : c.isWhitespace
    · simp [capJsRun, List.takeWhile_cons, List.dropWhile_cons, hw]
    · simp [capJsRun, List.takeWhile_cons, List.dropWhile_cons, hw, ih]

theorem amended_split (t : List Char) :
    capToken (t.takeWhile (fun x => !x.isWhitespace))
        ++ amendedCapitalize (t.dropWhile (fun x => !x.isWhitespace))
      = amendedCapitalize t := by
  cases t with
  | nil => simp [capToken, amendedCapitalize]
  | cons d ds =>
    by_cases hw : d.isWhitespace
    · simp [List.takeWhile_cons, List.dropWhile_cons, hw, capToken]
    · rw [List.takeWhile_cons, List.dropWhile_cons]
      simp only [hw, Bool.not_false, if_true]
      rw [amendedCapitalize]
      simp [hw]

theorem capJs_eq_amended_aux :
    ∀ (n : Nat) (l : List Char), l.length ≤ n → capJsRun false l = amendedCapitalize l := by
  intro n
  induction n with
  | zero =>
    intro l hl
    rw [Nat.le_zero, List.length_eq_zero] at hl
    subst hl
    simp [capJsRun, amendedCapitalize]
  | succ n ih =>
    intro l hl
    cases l with
    | nil => simp [capJsRun, amendedCapitalize]
    | cons c rest =>
      simp only [List.length_cons, Nat.succ_le_succ_iff] at hl
      by_cases hw : c.isWhitespace
      · rw [amendedCapitalize]
        simp only [capJsRun, hw, if_true]
        rw [ih rest hl]
      · have hw' : c.isWhitespace = false := by simpa using hw
        by_cases hword : isWordChar c
        · rw [show capJsRun false (c :: rest) = c.toUpper :: capJsRun true rest by
            simp [capJsRun, hw', hword]]
          have hd : (rest.dropWhile (fun x => !x.isWhitespace)).length ≤ n :=
            le_trans (dropWhile_len_le _ _) hl
          rw [capJsRun_true, ih _ hd]
          rw [← amended_split (c :: rest)]
          rw [List.takeWhile_cons, List.dropWhile_cons]
          simp [hw', capToken, hword]
        · have hword' : isWordChar c = false := by simpa using hword
          rw [show capJsRun false (c :: rest) = c :: capJsRun false rest by
            simp [capJsRun, hw', hword']]
          rw [ih rest hl]
          rw [← amended_split (c :: rest)]
          rw [List.takeWhile_cons, List.dropWhile_cons]
          simp only [hw', Bool.not_false, if_true]
          rw [capToken]
          simp [hword', amended_split rest]

/-! ### Claim theorems -/

/-- C1: for every record with `status = 'deleted'`, none of the read
operations — listing (`getAllMovies`), detail (`getMovieById`), search
suggestions, trending, by-genre — returns that record in its response, for
every combination of filter, search, sort and paging parameters (an
erroring request returns no records at all and is covered by the `some`
hypotheses). -/
theorem c1_soft_deleted_excluded (unk : RxOracle) (store : List Movie) :
    (∀ p resp, getAllMovies unk p store = some resp →
       ∀ m ∈ resp.movies, m.status ≠ MStatus.deleted)
    ∧ (∀ id mv rel, getMovieById id store = .found mv rel →
       mv.status ≠ MStatus.deleted ∧ ∀ r ∈ rel, r.status ≠ MStatus.deleted)
    ∧ (∀ q pool, suggestionPool unk q store = some pool →
       ∀ m ∈ pool, m.status ≠ MStatus.deleted)
    ∧ (∀ now tp m, m ∈ getTrendingMovies now tp store → m.status ≠ MStatus.deleted)
    ∧ (∀ g gp resp, getMoviesByGenre unk g gp store = some resp →
       ∀ m ∈ resp.movies, m.status ≠ MStatus.deleted) := by
  refine ⟨?_, ?_, ?_, ?_, ?_⟩
  · intro p resp h m hm
    unfold getAllMovies at h
    cases hq : compileQuery unk (buildQuery p) with
    | none => rw [hq] at h; exact absurd h (by simp)
    | some pred =>
      simp only [hq, Option.some.injEq] at h
      subst h
      simp only at hm
      have hmem := List.mem_filter.mp (mem_insSort.mp (mem_dropJs (mem_takeJs hm)))
      have hact := compileQuery_active hq hmem.2
      simp [hact]
  · intro id mv rel h
    unfold getMovieById at h
    cases hf : store.find? (fun m => m.id == id) with
    | none => rw [hf] at h; exact absurd h (by simp)
    | some m0 =>
      simp only [hf] at h
      by_cases hd : (m0.status == MStatus.deleted) = true
      · rw [if_pos hd] at h
        exact absurd h (by simp)
      · rw [if_neg hd] at h
        injection h with h1 h2
        subst h1
        subst h2
        constructor
        · simp only [renderDoc]
          intro hc
          exact hd (by simp [hc])
        · intro r hr
          have hmem := List.mem_filter.mp (List.mem_of_mem_take hr)
          have hok := hmem.2
          simp only [relatedOk, Bool.and_eq_true] at hok
          have : r.status = MStatus.active := beq_iff_eq.mp hok.1.2
          simp [this]
  · intro q pool h m hm
    unfold suggestionPool at h
    by_cases hl : q.length < 2
    · rw [if_pos hl] at h
      injection h with h'
      subst h'
      simp at hm
    · rw [if_neg hl] at h
      cases hf : findMatcher unk q with
      | none => rw [hf] at h; exact absurd h (by simp)
      | some tm =>
        rw [hf] at h
        injection h with h'
        subst h'
        have hmem := List.mem_filter.mp (mem_insSort.mp (List.mem_of_mem_take hm))
        have hok := hmem.2
        simp only [Bool.and_eq_true] at hok
        have : m.status = MStatus.active := beq_iff_eq.mp hok.1
        simp [this]
  · intro now tp m hm
    unfold getTrendingMovies at hm
    have hmem := List.mem_filter.mp (mem_insSort.mp (mem_takeJs hm))
    have hok := hmem.2
    simp only [Bool.and_eq_true] at hok
    have : m.status = MStatus.active := beq_iff_eq.mp hok.1
    simp [this]
  · intro g gp resp h m hm
    unfold getMoviesByGenre at h
    cases hf : findMatcher unk g with
    | none => rw [hf] at h; exact absurd h (by simp)
    | some tm =>
      simp only [hf, Option.some.injEq] at h
      subst h
      simp only at hm
      have hmem := List.mem_filter.mp (mem_insSort.mp (mem_dropJs (mem_takeJs hm)))
      have hok := hmem.2
      simp only [Bool.and_eq_true] at hok
      have : m.status = MStatus.active := beq_iff_eq.mp hok.1
      simp [this]

/-- Witness for C1: applied to the one-record active store `[mW1]`, the
trending conjunct yields that the returned record is not deleted. -/
theorem c1_soft_deleted_excluded_witness : mW1.status ≠ MStatus.deleted :=
  (c1_soft_deleted_excluded rxZero [mW1]).2.2.2.1 0 {} mW1 (by decide)

/-- Counterexample to C2 as stated: `mGhost` is already soft-deleted, yet
`deleteMovie` reports a second success (the `findByIdAndUpdate` lookup
matches by identifier alone), not a not-found condition. -/
theorem c2_redelete_reports_success :
    (deleteMovie 99 1 [mGhost]).1 = DeleteResult.deleted 1 (str "Ghost") (some 1990)
    ∧ (deleteMovie 99 1 [mGhost]).1 ≠ DeleteResult.notFound 1 := by
  constructor
  · decide
  · decide

/-- C2 (amended): calling `deleteMovie` on a record whose status is already
`'deleted'` is reported as a second success carrying the record's
identifying fields (not as not-found); the record is never physically
removed (the store keeps its length), and a subsequent export with
`includeDeleted = 'true'` still lists it. -/
theorem c2_soft_delete_never_removes (now : Int) (id : Nat) (store : List Movie)
    (m : Movie) (hfind : store.find? (fun x => x.id == id) = some m)
    (hdel : m.status = MStatus.deleted) :
    (deleteMovie now id store).1 = DeleteResult.deleted m.id m.title m.year
    ∧ ((deleteMovie now id store).2).length = store.length
    ∧ (exportMovies (str "true") (deleteMovie now id store).2).any
        (fun x => x.id == m.id) = true := by
  have hmem : m ∈ store := List.mem_of_find?_eq_some hfind
  have hid := List.find?_some hfind
  simp only at hid
  refine ⟨?_, ?_, ?_⟩
  · unfold deleteMovie
    simp [hfind]
  · unfold deleteMovie
    simp [hfind, replaceId]
  · unfold deleteMovie exportMovies
    simp only [hfind]
    rw [List.any_eq_true]
    refine ⟨{ m with status := MStatus.deleted, deletedAt := some now }, ?_, by simp⟩
    rw [mem_insSort, List.mem_filter]
    constructor
    · simp only [replaceId]
      rw [List.mem_map]
      exact ⟨m, hmem, by simp [hid]⟩
    · simp

/-- Witness for C2 (amended): instantiated on the already-deleted record
`mGhost`; its export entry after the second delete is still present. -/
theorem c2_soft_delete_never_removes_witness :
    (deleteMovie 99 1 [mGhost]).1 = DeleteResult.deleted mGhost.id mGhost.title mGhost.year
    ∧ ((deleteMovie 99 1 [mGhost]).2).length = ([mGhost] : List Movie).length
    ∧ (exportMovies (str "true") (deleteMovie 99 1 [mGhost]).2).any
        (fun x => x.id == mGhost.id) = true :=
  c2_soft_delete_never_removes 99 1 [mGhost] mGhost (by decide) (by decide)

/-- C3: whenever both a decade and a year parameter are supplied (non-empty),
the compiled query's year condition is the inclusive range
`[decadeStart, decadeStart + 9]` computed from the decade parameter; the raw
year filter is overwritten. -/
theorem c3_decade_overrides_year (p : ListParams)
    (hd : p.decade ≠ []) (hy : p.year ≠ []) :
    (buildQuery p).yearCond
      = some (.range (parseIntJS p.decade) (jsAddO (parseIntJS p.decade) 9)) := by
  have hd' : p.decade.isEmpty = false := by
    cases hde : p.decade with
    | nil => exact absurd hde hd
    | cons a l => simp
  unfold buildQuery
  simp only [hd', Bool.not_false, if_true, apply_ite (MQuery.yearCond)]
  split <;> split <;> rfl

/-- Witness for C3: the example scenario `{decade: "1990", year: "1985"}`
yields the effective year range [1990, 1999]. -/
theorem c3_decade_overrides_year_witness :
    (buildQuery pDecade).yearCond = some (.range (some 1990) (some 1999)) :=
  (c3_decade_overrides_year pDecade (by decide) (by decide)).trans (by decide)

/-- Counterexample to C4 as stated: with the supplied parameter
`page = "abc"`, `parseInt` yields `NaN` and `Math.max(1, NaN) = NaN`, so the
resolved page number is not clamped to a minimum of 1 (no integer results at
all), and the skip is `NaN` rather than `(page - 1) * limit`. -/
theorem c4_nan_page_not_clamped :
    resolvedPage pAbc = none ∧ resolvedSkip pAbc = none := by
  constructor
  · decide
  · decide

/-- C4 (amended): for every page and limit parameter that parse as integers,
the resolved page is clamped to a minimum of 1, the resolved limit is
clamped into [1, 50] (e.g. limit = 500 resolves to 50), the skip equals
`(page - 1) * limit` over the clamped values, the response pagination
carries those resolved values, and the number of returned items never
exceeds the clamped limit. -/
theorem c4_page_limit_clamped (unk : RxOracle) (p : ListParams)
    (store : List Movie) (pn ln : Int) (resp : ListResponse)
    (hp : parseIntJS p.page = some pn) (hl : parseIntJS p.limit = some ln)
    (hrun : getAllMovies unk p store = some resp) :
    resolvedPage p = some (max 1 pn)
    ∧ 1 ≤ max 1 pn
    ∧ resolvedLimit p = some (min 50 (max 1 ln))
    ∧ 1 ≤ min 50 (max 1 ln) ∧ min 50 (max 1 ln) ≤ 50
    ∧ resolvedSkip p = some ((max 1 pn - 1) * min 50 (max 1 ln))
    ∧ resp.pagination.currentPage = some (max 1 pn)
    ∧ resp.pagination.limit = some (min 50 (max 1 ln))
    ∧ (resp.movies.length : Int) ≤ min 50 (max 1 ln) := by
  have hpage : resolvedPage p = some (max 1 pn) := by
    simp [resolvedPage, jsMaxO, hp]
  have hlimit : resolvedLimit p = some (min 50 (max 1 ln)) := by
    simp [resolvedLimit, jsMaxO, jsMinO, hl]
  have hone : (1 : Int) ≤ max 1 pn := le_max_left _ _
  have hlo : (1 : Int) ≤ min 50 (max 1 ln) := le_min (by norm_num) (le_max_left _ _)
  have hhi : min 50 (max 1 ln) ≤ 50 := min_le_left _ _
  have hskip : resolvedSkip p = some ((max 1 pn - 1) * min 50 (max 1 ln)) := by
    simp [resolvedSkip, hpage, hlimit, jsSubO, jsMulO]
  refine ⟨hpage, hone, hlimit, hlo, hhi, hskip, ?_⟩
  unfold getAllMovies at hrun
  cases hq : compileQuery unk (buildQuery p) with
  | none => rw [hq] at hrun; exact absurd hrun (by simp)
  | some pred =>
    simp only [hq, Option.some.injEq] at hrun
    subst hrun
    refine ⟨hpage, hlimit, ?_⟩
    simp only [hlimit, takeJs]
    calc ((List.take (min 50 (max 1 ln)).toNat _).length : Int)
        ≤ ((min 50 (max 1 ln)).toNat : Int) := by
          exact_mod_cast List.length_take_le _ _
      _ = min 50 (max 1 ln) := Int.toNat_of_nonneg (le_trans (by norm_num) hlo)

/-- Witness for C4 (amended): the oversized request `limit = 500` on page 2
resolves to the clamped values page 2, limit 50, skip 50. -/
theorem c4_page_limit_clamped_witness :
    resolvedPage p500 = some 2 ∧ resolvedLimit p500 = some 50
    ∧ resolvedSkip p500 = some 50 := by
  have h := c4_page_limit_clamped rxZero p500 [mW1] 2 500 resp500
    (by decide) (by decide) (by decide)
  exact ⟨h.1.trans (by decide), h.2.2.1.trans (by decide),
    h.2.2.2.2.2.1.trans (by decide)⟩

theorem round1JS_zero : round1JS 0 = 0 := by
  unfold round1JS
  have h : ⌊(0 : ℚ) * 10 + 1 / 2⌋ = (0 : ℤ) := by
    apply Int.floor_eq_iff.mpr
    constructor <;> norm_num
  rw [h]
  norm_num

theorem round1JS_heat : round1JS (7666 / 1000 : ℚ) = 77 / 10 := by
  unfold round1JS
  have h : ⌊(7666 : ℚ) / 1000 * 10 + 1 / 2⌋ = (77 : ℤ) := by
    apply Int.floor_eq_iff.mpr
    constructor <;> norm_num
  rw [h]
  norm_num

/-- Counterexample to C5 as stated: the stored rating 7.666 of `mHeat` is
returned verbatim by the paginated listing (`.lean()` results bypass the
`toJSON` rounding transform), and 7.666 is not equal to its one-decimal
rounding 7.7. -/
theorem c5_listing_rating_not_rounded :
    (getAllMovies rxZero {} [mHeat]).map (fun r => r.movies.map (fun m => m.rating))
      = some [some (7666 / 1000 : ℚ)]
    ∧ round1JS (7666 / 1000 : ℚ) = 77 / 10
    ∧ (7666 / 1000 : ℚ) ≠ 77 / 10 := by
  refine ⟨by rfl, round1JS_heat, by norm_num⟩

/-- C5 (amended): ratings are rounded to one decimal place only on paths
serializing a Mongoose document through `toJSON` — the detail response's
movie renders `m.rating.map round1JS` — while the paginated listing uses
`.lean()` and returns the stored records (hence stored rating precision)
unchanged. -/
theorem c5_rounding_only_on_document_paths :
    (∀ id store m, store.find? (fun x => x.id == id) = some m →
       m.status ≠ MStatus.deleted →
       detailRating id store = some (m.rating.map round1JS))
    ∧ (∀ unk p store resp, getAllMovies unk p store = some resp →
       ∀ mv ∈ resp.movies, mv ∈ store) := by
  constructor
  · intro id store m hfind hst
    unfold detailRating getMovieById
    simp only [hfind]
    rw [if_neg (by simp [hst])]
    simp only [renderDoc]
    cases hr : m.rating with
    | none => simp
    | some r =>
      simp only [Option.map_some']
      by_cases h0 : (r == 0) = true
      · have hr0 : r = 0 := beq_iff_eq.mp h0
        subst hr0
        simp [round1JS_zero]
      · simp [h0]
  · intro unk p store resp h mv hm
    unfold getAllMovies at h
    cases hq : compileQuery unk (buildQuery p) with
    | none => rw [hq] at h; exact absurd h (by simp)
    | some pred =>
      simp only [hq, Option.some.injEq] at h
      subst h
      simp only at hm
      exact (List.mem_filter.mp (mem_insSort.mp (mem_dropJs (mem_takeJs hm)))).1

/-- Witness for C5 (amended): the detail path over `[mHeat]` renders the
stored 7.666 rounded to 7.7. -/
theorem c5_rounding_only_on_document_paths_witness :
    detailRating 1 [mHeat] = some (some (77 / 10 : ℚ)) := by
  have h := (c5_rounding_only_on_document_paths).1 1 [mHeat] mHeat (by rfl) (by decide)
  rw [h]
  show some (Option.map round1JS (some (7666 / 1000 : ℚ))) = _
  rw [Option.map_some', round1JS_heat]

theorem any_congr_mem {p q : α → Bool} {l : List α} (h : ∀ a ∈ l, p a = q a) :
    l.any p = l.any q := by
  induction l with
  | nil => rfl
  | cons x xs ih =>
    simp only [List.any_cons]
    rw [h x (List.mem_cons_self x xs), ih (fun a ha => h a (List.mem_cons_of_mem x ha))]

/-- Counterexample to C6 as stated: `bWhat` duplicates `mWhat` exactly (same
case-insensitive title `What?`, same year 2000, not deleted), yet
`createMovie` raises no conflict and persists a second record — the raw
title is interpolated into the duplicate-check regex, where `?` makes the
`t` optional, so `^What?$` does not match the stored title `What?`. -/
theorem c6_metachar_duplicate_not_rejected :
    ciEqB bWhat.title mWhat.title = true
    ∧ mWhat.year = some bWhat.year
    ∧ mWhat.status ≠ MStatus.deleted
    ∧ (createMovie rxZero 0 bWhat [mWhat]).map (fun r => (isConflict r.1, r.2.length))
        = some (false, 2) := by
  refine ⟨by decide, by decide, by decide, by decide⟩

/-- C6 (amended): for create requests whose title is free of regex
metacharacters, the duplicate check is exact case-insensitive (title, year)
equality among non-deleted records: on a duplicate the request is rejected
with a conflict and no write occurs; otherwise the record is persisted
through `save` and returned with a freshly generated identifier distinct
from every stored one. -/
theorem c6_create_conflict_literal_titles (unk : RxOracle) (now : Int)
    (b : CreateBody) (store : List Movie) (hlit : litOnly b.title = true) :
    (store.any (fun m => ciEqB b.title m.title && (m.year == some b.year)
        && !(m.status == MStatus.deleted)) = true →
      createMovie unk now b store = some (.conflict b.title b.year, store))
    ∧ (store.any (fun m => ciEqB b.title m.title && (m.year == some b.year)
        && !(m.status == MStatus.deleted)) = false →
      createMovie unk now b store
        = some (.created (saveNew now (freshId store) b),
            store ++ [saveNew now (freshId store) b])
      ∧ ∀ m ∈ store, m.id ≠ freshId store) := by
  have hmatch : anchoredMatcher unk b.title
      = some (fun s => matchItems (b.title.map (fun c => RItem.once (RAtom.lit c))) s) := by
    unfold anchoredMatcher
    rw [compileRx_lit hlit]
  have hany : store.any (fun m =>
        matchItems (b.title.map (fun c => RItem.once (RAtom.lit c))) m.title
          && (m.year == some b.year) && !(m.status == MStatus.deleted))
      = store.any (fun m => ciEqB b.title m.title && (m.year == some b.year)
          && !(m.status == MStatus.deleted)) := by
    apply any_congr_mem
    intro m _
    rw [matchItems_lits]
  constructor
  · intro hdup
    unfold createMovie
    rw [hmatch]
    simp only
    rw [hany, if_pos hdup]
  · intro hdup
    constructor
    · unfold createMovie
      rw [hmatch]
      simp only
      rw [hany, if_neg (by simp [hdup])]
    · intro m hm hcontra
      have hle : m.id ≤ (store.map (fun m => m.id)).foldr max 0 :=
        le_foldr_max (List.mem_map_of_mem _ hm)
      rw [freshId] at hcontra
      omega

/-- Witness for C6 (amended): `bHeatDup` (title `heat`, year 1995)
duplicates the stored `mW1` (title `Heat`, year 1995) up to case, and the
create request is rejected with a conflict, leaving the store unchanged. -/
theorem c6_create_conflict_literal_titles_witness :
    createMovie rxZero 5 bHeatDup [mW1]
      = some (.conflict bHeatDup.title bHeatDup.year, [mW1]) :=
  (c6_create_conflict_literal_titles rxZero 5 bHeatDup [mW1] (by decide)).1 (by decide)

/-- Counterexample to C7 as stated: updating the plot of the soft-deleted
record `mDelPlot` is reported as not-found with the requested identifier,
but the stored record has been changed by the failed update (its plot is now
`new`), because `findByIdAndUpdate` applies the merge before the status
check. -/
theorem c7_deleted_update_has_side_effects :
    (updateMovie rxZero 5 1 updPlot [mDelPlot]).map
        (fun r => (r.1, r.2.map (fun m => m.plot)))
      = some (.notFound 1, [some (str "new")])
    ∧ mDelPlot.plot = some (str "old")
    ∧ str "new" ≠ str "old" := by
  refine ⟨by decide, by decide, by decide⟩

/-- C7 (amended): for update requests that supply neither title, year nor
status (so the duplicate check is skipped and the status cannot change):
when the identifier is absent the result is not-found carrying the
requested identifier with no side effects; when it refers to a soft-deleted
record, not-found is still reported with the requested identifier, but the
field merge and `updatedAt` stamp have already been applied to the stored
record. -/
theorem c7_not_found_semantics (unk : RxOracle) (now : Int) (id : Nat)
    (u : UpdateData) (store : List Movie)
    (ht : u.title = none) (hy : u.year = none) (hs : u.status = none) :
    (store.find? (fun x => x.id == id) = none →
      updateMovie unk now id u store = some (.notFound id, store))
    ∧ (∀ m, store.find? (fun x => x.id == id) = some m →
        m.status = MStatus.deleted →
        updateMovie unk now id u store
          = some (.notFound id, replaceId store id (applyUpd now m u))) := by
  have hskip : (u.title.isSome || u.year.isSome) = false := by
    rw [ht, hy]
    rfl
  constructor
  · intro hfind
    unfold updateMovie
    rw [hskip]
    simp only [Bool.false_eq_true, if_false]
    unfold updateApply
    rw [hfind]
  · intro m hfind hdel
    unfold updateMovie
    rw [hskip]
    simp only [Bool.false_eq_true, if_false]
    unfold updateApply
    rw [hfind]
    have hstat : (applyUpd now m u).status = MStatus.deleted := by
      simp [applyUpd, hs, hdel]
    simp [hstat]

/-- Witness for C7 (amended): instantiated on the soft-deleted record
`mDelPlot` with the plot-only update `updPlot`. -/
theorem c7_not_found_semantics_witness :
    updateMovie rxZero 5 1 updPlot [mDelPlot]
      = some (.notFound 1, replaceId [mDelPlot] 1 (applyUpd 5 mDelPlot updPlot)) :=
  (c7_not_found_semantics rxZero 5 1 updPlot [mDelPlot] rfl rfl rfl).2
    mDelPlot (by decide) (by decide)

/-- Counterexample to C8 as stated: the search string `(` (an unterminated
group) is passed unescaped into the query regex, and the request errors
instead of matching a literal `(` — the compiler performs no escaping. -/
theorem c8_paren_search_errors :
    getAllMovies rxZero pParen [] = none := by
  decide

/-- C8 (amended): the search string is interpolated into the `$regex`
fragments without escaping.  For search strings free of regex
metacharacters this yields exactly the claimed behaviour — a disjunction of
case-insensitive substring matches over title, plot, director, cast entries
and genre entries, with missing fields never matching — while strings
containing metacharacters keep their regex meaning and invalid patterns
error.  The raw (untrimmed) search string is what reaches the regex
whenever its trimmed form is non-empty. -/
theorem c8_search_literal_substring (unk : RxOracle) (s : List Char)
    (hlit : litOnly s = true) :
    orSearch unk s = some (fun m =>
      subCI s m.title || optMatch (subCI s) m.plot || optMatch (subCI s) m.director
        || m.cast.any (subCI s) || m.genres.any (subCI s))
    ∧ (∀ p : ListParams, (trimJs p.search).isEmpty = false →
        (buildQuery p).search = some p.search) := by
  constructor
  · unfold orSearch findMatcher
    rw [compileRx_lit hlit]
    simp only [Option.map_some']
    congr 1
    funext m
    have hfn : ∀ x, matchFind (s.map (fun c => RItem.once (RAtom.lit c))) x = subCI s x :=
      matchFind_lits s
    simp only [hfn]
  · intro p hp
    unfold buildQuery
    simp only [hp, Bool.not_false, if_true, apply_ite (MQuery.search)]
    split <;> split <;> split <;> split <;> split <;> rfl

/-- Witness for C8 (amended): the literal search string `god` is carried
into the compiled query unchanged. -/
theorem c8_search_literal_substring_witness :
    (buildQuery pGod).search = some (str "god") :=
  (c8_search_literal_substring rxZero (str "god") (by decide)).2 pGod (by decide)

/-- Counterexample to C9 as stated: a title-only update with title `What?`
conflicts with the stored record `What` — the check matches titles under the
interpolated regex, not "the same case-insensitive title". -/
theorem c9_title_only_check_not_ci_equality :
    (updateMovie rxZero 7 1 updTitleQ [mWhatPlain]).map (fun r => r.1) = some .conflict
    ∧ ciEqB (str "What?") mWhatPlain.title = false := by
  refine ⟨by decide, by decide⟩

/-- C9 (amended): in `updateMovie`, a title-without-year update checks any
other non-deleted record whose title matches the supplied title as an
anchored case-insensitive regex, with no condition on that record's year
(Mongoose strips the undefined year); a year-without-title update compiles
the pattern `^.*$`, which matches every title free of line terminators, so
it checks any other non-deleted record with that year regardless of title.
In both cases the conflict key is strictly broader than the create path's
(case-insensitive title, year) pair, witnessed by `mBroadY` (matches the
title-only key but not the create key for year 2001) and `mBroadZ` (matches
the year-only key for 2001 but not the create key for title `Abc`). -/
theorem c9_partial_update_conflict_broader :
    (∀ (unk : RxOracle) (id : Nat) (t : List Char) (tm : List Char → Bool)
        (store : List Movie), anchoredMatcher unk t = some tm →
      updateDupHit unk id t none store
        = some (store.any (fun m =>
            !(m.id == id) && tm m.title && !(m.status == MStatus.deleted))))
    ∧ compileRx (str ".*") = CompRes.ok [RItem.star RAtom.dot]
    ∧ (∀ s, matchItems [RItem.star RAtom.dot] s = s.all (fun c => matchA RAtom.dot c))
    ∧ (∀ (unk : RxOracle) (id : Nat) (y : Int) (store : List Movie),
      updateDupHit unk id (str ".*") (some y) store
        = some (store.any (fun m =>
            !(m.id == id) && m.title.all (fun c => matchA RAtom.dot c)
              && (m.year == some y) && !(m.status == MStatus.deleted))))
    ∧ updateDupHit rxZero 1 (str "Abc") none [mBroadY] = some true
    ∧ (ciEqB (str "Abc") mBroadY.title && (mBroadY.year == some (2001 : Int))) = false
    ∧ updateDupHit rxZero 1 (str ".*") (some 2001) [mBroadZ] = some true
    ∧ ciEqB (str "Abc") mBroadZ.title = false := by
  refine ⟨?_, by decide, matchItems_dotStar, ?_, by decide, by decide, by decide, by decide⟩
  · intro unk id t tm store hmatch
    unfold updateDupHit
    rw [hmatch]
    simp only [Option.map_some', Option.some.injEq]
    apply any_congr_mem
    intro m _
    simp
  · intro unk id y store
    unfold updateDupHit anchoredMatcher
    rw [show compileRx (str ".*") = CompRes.ok [RItem.star RAtom.dot] from by decide]
    simp only [Option.map_some', Option.some.injEq]
    apply any_congr_mem
    intro m _
    rw [matchItems_dotStar]

/-- Witness for C9 (amended): the title-only duplicate check applied over
`[mW1]` for another identifier fires on the stored `Heat` record. -/
theorem c9_partial_update_conflict_broader_witness :
    updateDupHit rxZero 9 (str "Heat") none [mW1] = some true :=
  ((c9_partial_update_conflict_broader).1 rxZero 9 (str "Heat")
    (fun s => matchItems ((str "Heat").map (fun c => RItem.once (RAtom.lit c))) s)
    [mW1] rfl).trans (by decide)

/-- Counterexample to C10 as stated: creating `bJohn` stores its director
`(JOHN)` as `(John)` — the `\w\S*` replacement uppercases the first word
character (`J`), skipping the leading `(` — while the claim's
whitespace-delimited-word rule would produce `(john)` (uppercasing the
unchangeable `(` and lowercasing everything after it). -/
theorem c10_leading_nonword_divergence :
    (createMovie rxZero 0 bJohn []).map (fun r => r.2.map (fun m => m.director))
      = some [some (str "(John)")]
    ∧ claimCapitalize (str "(JOHN)") = str "(john)"
    ∧ str "(John)" ≠ str "(john)" := by
  refine ⟨by decide, by decide, by decide⟩

/-- C10 (amended): for every record saved through the Movie model, the
stored title and director are rewritten so that within each
whitespace-delimited token the first word character (letter, digit or
underscore) is uppercased, the characters after it are lowercased, and any
characters before it are preserved unchanged; e.g. `the GODFATHER` is
stored as `The Godfather`. -/
theorem c10_capitalize_from_first_word_char :
    (∀ l, capitalizeJs l = amendedCapitalize l)
    ∧ (∀ (unk : RxOracle) (now : Int) (b : CreateBody) (store store' : List Movie)
        (nm : Movie), createMovie unk now b store = some (.created nm, store') →
        nm.title = capitalizeJs b.title ∧ nm.director = b.director.map capitalizeJs)
    ∧ capitalizeJs (str "the GODFATHER") = str "The Godfather" := by
  refine ⟨?_, ?_, by decide⟩
  · intro l
    exact capJs_eq_amended_aux l.length l le_rfl
  · intro unk now b store store' nm h
    unfold createMovie at h
    cases hm : anchoredMatcher unk b.title with
    | none => rw [hm] at h; exact absurd h (by simp)
    | some tm =>
      simp only [hm] at h
      by_cases hdup : (store.any (fun m => tm m.title && (m.year == some b.year)
          && !(m.status == MStatus.deleted))) = true
      · rw [if_pos hdup] at h
        exact absurd h (by simp)
      · rw [if_neg hdup] at h
        simp only [Option.some.injEq, Prod.mk.injEq] at h
        obtain ⟨h1, _⟩ := h
        injection h1 with h1
        rw [← h1]
        exact ⟨rfl, rfl⟩

/-- Witness for C10 (amended): the record created from `bJohn` stores the
hook's rewriting of its title and director. -/
theorem c10_capitalize_from_first_word_char_witness :
    (saveNew 0 1 bJohn).title = capitalizeJs bJohn.title
    ∧ (saveNew 0 1 bJohn).director = bJohn.director.map capitalizeJs :=
  (c10_capitalize_from_first_word_char).2.1 rxZero 0 bJohn []
    [saveNew 0 1 bJohn] (saveNew 0 1 bJohn) rfl
